import Mathlib

/-!
Verification development for the stock-agent backend (src/backend/server.py).

Finite numbers are modelled by exact rationals; pandas/NumPy scalar values
are modelled by `PVal`, which adds the IEEE special values NaN and plus or
minus infinity that the float pipeline can produce (division by zero,
missing values introduced by `Series.diff` and rolling warm-up).
-/

/-- A pandas scalar: NaN, positive infinity, negative infinity, or a finite
value (modelled as an exact rational). -/
inductive PVal where
  | nan : PVal
  | inf : PVal
  | ninf : PVal
  | fin : ℚ → PVal
  deriving DecidableEq, Repr

/-- IEEE negation of a pandas scalar. -/
def PVal.neg : PVal → PVal
  | .nan => .nan
  | .inf => .ninf
  | .ninf => .inf
  | .fin q => .fin (-q)

/-- IEEE addition of pandas scalars: NaN propagates, opposite infinities
give NaN. -/
def PVal.add : PVal → PVal → PVal
  | .nan, _ => .nan
  | _, .nan => .nan
  | .inf, .ninf => .nan
  | .ninf, .inf => .nan
  | .inf, _ => .inf
  | _, .inf => .inf
  | .ninf, _ => .ninf
  | _, .ninf => .ninf
  | .fin a, .fin b => .fin (a + b)

/-- IEEE subtraction, `a - b = a + (-b)`. -/
def PVal.sub (a b : PVal) : PVal := a.add b.neg

/-- IEEE division of pandas scalars.  NumPy semantics for a float Series:
a positive finite value divided by zero is `inf`, a negative one is `-inf`,
and `0/0` is NaN. -/
def PVal.div : PVal → PVal → PVal
  | .nan, _ => .nan
  | _, .nan => .nan
  | .inf, .inf => .nan
  | .inf, .ninf => .nan
  | .ninf, .inf => .nan
  | .ninf, .ninf => .nan
  | .inf, .fin b => if b < 0 then .ninf else .inf
  | .ninf, .fin b => if b < 0 then .inf else .ninf
  | .fin _, .inf => .fin 0
  | .fin _, .ninf => .fin 0
  | .fin a, .fin b =>
      if b = 0 then (if 0 < a then .inf else if a < 0 then .ninf else .nan)
      else .fin (a / b)

/-- IEEE strict greater-than: every comparison with NaN is false. -/
def PVal.gtB : PVal → PVal → Bool
  | .nan, _ => false
  | _, .nan => false
  | .inf, .inf => false
  | .inf, _ => true
  | _, .inf => false
  | .ninf, .ninf => false
  | _, .ninf => true
  | .ninf, _ => false
  | .fin a, .fin b => decide (b < a)

/-- The dictionary value `float(v) if not pd.isna(v) else None` used when the
handlers build the `tech_indicators` dictionary.  In this pipeline the
non-NaN values are always finite (see `rollingMean_all_fin_nonneg` and the
shape analysis in the RSI theorems), so mapping the unreachable infinities
to `none` as well loses nothing. -/
def PVal.toOption : PVal → Option ℚ
  | .fin q => some q
  | _ => none

/-- `prices.diff()`: first entry NaN, then consecutive differences. -/
def pdiff (prices : List ℚ) : List PVal :=
  (List.range prices.length).map fun i =>
    if i = 0 then PVal.nan else PVal.fin (prices.getD i 0 - prices.getD (i - 1) 0)

/-- `delta.where(delta > 0, 0)`: keep entries greater than zero, replace all
others (including NaN, for which the comparison is false) by `0`. -/
def whereGtZero (xs : List PVal) : List PVal :=
  xs.map fun d => if d.gtB (PVal.fin 0) then d else PVal.fin 0

/-- `delta.where(delta < 0, 0)`: keep entries less than zero, replace all
others (including NaN) by `0`. -/
def whereLtZero (xs : List PVal) : List PVal :=
  xs.map fun d => if (PVal.fin 0).gtB d then d else PVal.fin 0

/-- Elementwise negation of a Series. -/
def pneg (xs : List PVal) : List PVal := xs.map PVal.neg

/-- `Series.rolling(window=w).mean()` with the default `min_periods = w`:
NaN during warm-up, otherwise the mean of the trailing `w` entries (NaN if
any entry of the window is NaN, via NaN propagation through the sum). -/
def rollingMean (w : ℕ) (xs : List PVal) : List PVal :=
  (List.range xs.length).map fun i =>
    if i + 1 < w then PVal.nan
    else (((xs.take (i + 1)).drop (i + 1 - w)).foldr PVal.add (PVal.fin 0)).div (PVal.fin w)

/-- The pointwise final step of `calculate_rsi`: `100 - (100 / (1 + rs))`. -/
def rsiPoint (rs : PVal) : PVal :=
  PVal.sub (PVal.fin 100) (PVal.div (PVal.fin 100) (PVal.add (PVal.fin 1) rs))

/-- `calculate_rsi` from server.py: rolling means of gains and losses of the
day-over-day deltas, their ratio, and `100 - 100/(1+rs)`. -/
def calculate_rsi (prices : List ℚ) (window : ℕ) : List PVal :=
  let delta := pdiff prices
  let gain := rollingMean window (whereGtZero delta)
  let loss := rollingMean window (pneg (whereLtZero delta))
  let rs := List.zipWith PVal.div gain loss
  rs.map rsiPoint

/-- The smoothing factor `alpha = 2/(span+1)` used by `Series.ewm(span=s)`. -/
def ewmAlpha (span : ℕ) : ℚ := 2 / (span + 1)

/-- The online loop of pandas `ewm(...).mean()` with the default
`adjust=True`: state `(avg, wt)`, update
`avg := ((1-a)*wt*avg + x) / ((1-a)*wt + 1)` and `wt := (1-a)*wt + 1`. -/
def ewmGo (a : ℚ) (avg wt : ℚ) : List ℚ → List ℚ
  | [] => []
  | x :: xs =>
      let owt := (1 - a) * wt
      let avg2 := (owt * avg + x) / (owt + 1)
      avg2 :: ewmGo a avg2 (owt + 1) xs

/-- `prices.ewm(span=span).mean()` (pandas default `adjust=True`,
`min_periods=0`): the first output is the first input, then the adjusted
weighted-average recurrence. -/
def ewm_mean (span : ℕ) : List ℚ → List ℚ
  | [] => []
  | x :: xs => x :: ewmGo (ewmAlpha span) x 1 xs

/-- `calculate_macd` from server.py: the MACD line is
`ewm(fast) - ewm(slow)` and the signal line is `ewm(signal)` of the MACD
line. -/
def calculate_macd (prices : List ℚ) (fast slow signal : ℕ) : List ℚ × List ℚ :=
  let ema_fast := ewm_mean fast prices
  let ema_slow := ewm_mean slow prices
  let macd := List.zipWith (fun x y => x - y) ema_fast ema_slow
  let macd_signal := ewm_mean signal macd
  (macd, macd_signal)

/-- Spec-side definition (the claim's words): the conventional EMA recurrence
`y0 = x0`, `y_t = a*x_t + (1-a)*y_{t-1}` -- the tail of the output stream
given the previous output `prev`. -/
def emaSpecRecAux (a prev : ℚ) : List ℚ → List ℚ
  | [] => []
  | x :: xs =>
      let y := a * x + (1 - a) * prev
      y :: emaSpecRecAux a y xs

/-- Spec-side definition (the claim's words): the conventional
smoothing-factor EMA seeded by the first value. -/
def emaSpecRec (span : ℕ) : List ℚ → List ℚ
  | [] => []
  | x :: xs => x :: emaSpecRecAux (ewmAlpha span) x xs

/-- Spec-side closed form of pandas `adjust=True` exponential weighting:
`y_t = (sum_i (1-a)^i * x_{t-i}) / (sum_i (1-a)^i)` over `i = 0..t`. -/
def ewmClosed (a : ℚ) (xs : List ℚ) (t : ℕ) : ℚ :=
  (Finset.sum (Finset.range (t + 1)) fun i => (1 - a) ^ i * xs.getD (t - i) 0) /
    (Finset.sum (Finset.range (t + 1)) fun i => (1 - a) ^ i)

/-- A Python exception as the handlers see it: a FastAPI `HTTPException`
carrying a status and detail, or any other exception carrying its message. -/
inductive PyExc where
  | http : ℕ → String → PyExc
  | other : String → PyExc
  deriving DecidableEq, Repr

/-- Python `str(e)`: for an `HTTPException` starlette renders
`"{status}: {detail}"`; for other exceptions just the message. -/
def pyStr : PyExc → String
  | .http s d => toString s ++ ": " ++ d
  | .other m => m

/-- The enriched data frame produced by `get_stock_data`: the raw close
series plus the indicator columns it attaches.  (The Bollinger-band columns
are also attached by the source but are referenced by no claim; their
computation needs a real-valued square root and is not modelled.) -/
structure EnrichedData where
  close : List ℚ
  sma_20 : List PVal
  sma_50 : List PVal
  rsi : List PVal
  macd : List ℚ
  macd_signal : List ℚ
  deriving DecidableEq, Repr

/-- The indicator-column block of `get_stock_data`:
`rolling(20).mean()`, `rolling(50).mean()`, `calculate_rsi`,
`calculate_macd` over the close series. -/
def enrich (close : List ℚ) : EnrichedData :=
  { close := close
    sma_20 := rollingMean 20 (close.map PVal.fin)
    sma_50 := rollingMean 50 (close.map PVal.fin)
    rsi := calculate_rsi close 14
    macd := (calculate_macd close 12 26 9).1
    macd_signal := (calculate_macd close 12 26 9).2 }

/-- `get_stock_data(symbol, period)` given the upstream provider outcome
(`yf.Ticker(symbol).history(period)` either raises, modelled by `.error`,
or returns a close series).  The `try` body raises `HTTPException(404)` on
an empty series; the blanket `except Exception` catches every exception
raised in the body -- including that `HTTPException` -- and re-raises it as
`HTTPException(500, "Error retrieving data: " + str(e))`. -/
def get_stock_data (symbol : String) (upstream : Except String (List ℚ)) :
    Except PyExc EnrichedData :=
  let body : Except PyExc EnrichedData :=
    match upstream with
    | .error m => .error (.other m)
    | .ok data =>
        if data.isEmpty then
          .error (.http 404 ("No data found for symbol " ++ symbol))
        else .ok (enrich data)
  match body with
  | .ok d => .ok d
  | .error e => .error (.http 500 ("Error retrieving data: " ++ pyStr e))

/-- One JSON row of the chart response: the optional indicator fields go
through `float(v) if not pd.isna(v) else None`. -/
structure ChartRow where
  close : ℚ
  sma_20 : Option ℚ
  sma_50 : Option ℚ
  rsi : Option ℚ
  deriving DecidableEq, Repr

/-- The row-building loop of `get_stock_chart_data`. -/
def chartRows (d : EnrichedData) : List ChartRow :=
  (List.range d.close.length).map fun i =>
    { close := d.close.getD i 0
      sma_20 := (d.sma_20.getD i PVal.nan).toOption
      sma_50 := (d.sma_50.getD i PVal.nan).toOption
      rsi := (d.rsi.getD i PVal.nan).toOption }

/-- The `GET /api/stock/{symbol}/data` handler: calls `get_stock_data`,
serializes the rows; its own blanket `except Exception` re-raises anything
as `HTTPException(500, str(e))`. -/
def get_stock_chart_data (symbol : String) (upstream : Except String (List ℚ)) :
    Except PyExc (String × List ChartRow) :=
  match get_stock_data symbol upstream with
  | .error e => .error (.http 500 (pyStr e))
  | .ok d => .ok (symbol, chartRows d)

/-- The HTTP status with which a handler outcome is answered. -/
def statusOf : Except PyExc α → ℕ
  | .ok _ => 200
  | .error (.http s _) => s
  | .error (.other _) => 500

/-- The latest-row technical-indicator snapshot built by
`analyze_with_groq` from `data.tail(1)`. -/
structure Snapshot where
  current_price : ℚ
  sma_20 : Option ℚ
  sma_50 : Option ℚ
  rsi : Option ℚ
  macd : Option ℚ
  deriving DecidableEq, Repr

/-- `data.tail(1).iloc[0]` turned into the `tech_indicators` dictionary. -/
def latestSnapshot (d : EnrichedData) : Snapshot :=
  let i := d.close.length - 1
  { current_price := d.close.getD i 0
    sma_20 := (d.sma_20.getD i PVal.nan).toOption
    sma_50 := (d.sma_50.getD i PVal.nan).toOption
    rsi := (d.rsi.getD i PVal.nan).toOption
    macd := some (d.macd.getD i 0) }

/-- Python truthiness of an optional float dictionary entry: `None` and
`0.0` are falsy, every other value is truthy. -/
def truthy : Option ℚ → Bool
  | none => false
  | some q => decide (q ≠ 0)

/-- The recommendation strings of `analyze_with_groq`. -/
def buyHint : String := "Consider buying - RSI indicates oversold conditions"

/-- The overbought recommendation string. -/
def sellHint : String := "Consider selling - RSI indicates overbought conditions"

/-- The bullish crossover recommendation string. -/
def bullHint : String := "Bullish signal - 20-day SMA above 50-day SMA"

/-- The recommendation rule block of `analyze_with_groq`:
`if rsi and rsi < 30: ... elif rsi and rsi > 70: ...` followed by
`if sma_20 and sma_50 and sma_20 > sma_50: ...`. -/
def recommendations (rsi sma_20 sma_50 : Option ℚ) : List String :=
  (if truthy rsi ∧ rsi.getD 0 < 30 then [buyHint]
   else if truthy rsi ∧ 70 < rsi.getD 0 then [sellHint]
   else []) ++
  (if truthy sma_20 ∧ truthy sma_50 ∧ sma_50.getD 0 < sma_20.getD 0 then [bullHint]
   else [])

/-- The risk block of `analyze_with_groq`: start from `"Medium"`, and only
when the dictionary entry `rsi` is truthy refine to `"High"` or `"Low"`. -/
def risk_level (rsi : Option ℚ) : String :=
  if truthy rsi then
    let r := rsi.getD 0
    if 80 < r ∨ r < 20 then "High"
    else if 40 ≤ r ∧ r ≤ 60 then "Low"
    else "Medium"
  else "Medium"

/-- The structured response of the analysis endpoints. -/
structure AIAgentResponse where
  analysis : String
  recommendations : List String
  risk_level : String
  confidence_score : ℚ
  technical_indicators : Snapshot
  deriving DecidableEq, Repr

/-- `analyze_with_groq`: given the latest snapshot, the news list, the query
and the LLM outcome, either every exception raised in the body is re-raised
as `HTTPException(500, "Analysis error: " + str(e))`, or the response is
assembled from the LLM text, the rule-based recommendation list, the
rule-based risk level and the constant confidence score `85.0`. -/
def analyze_with_groq (snap : Snapshot) (news : List String) (query : String)
    (groq : Except String String) : Except PyExc AIAgentResponse :=
  match groq with
  | .error e => .error (.http 500 ("Analysis error: " ++ e))
  | .ok text =>
      .ok { analysis := text
            recommendations := recommendations snap.rsi snap.sma_20 snap.sma_50
            risk_level := risk_level snap.rsi
            confidence_score := 85
            technical_indicators := snap }

/-- A persistence-layer side effect performed by a handler. -/
inductive Effect where
  | dbInsert : String → String → Effect
  deriving DecidableEq, Repr

/-- The external-collaborator outcomes a request handler consumes: the
market-data provider result, the news list (news failures are already
swallowed inside `get_stock_news`), and the LLM result. -/
structure HandlerEnv where
  upstream : Except String (List ℚ)
  news : List String
  groq : Except String String

/-- The `POST /api/analyze` handler: fetch, news, analyze, then insert the
analysis document into `db.stock_analyses` and return; any raised exception
is re-raised as `HTTPException(500, str(e))`.  The second component is the
list of persistence effects performed. -/
def analyze_stock (env : HandlerEnv) (symbol timeframe : String) :
    Except PyExc AIAgentResponse × List Effect :=
  match get_stock_data symbol env.upstream with
  | .error e => (.error (.http 500 (pyStr e)), [])
  | .ok data =>
      match analyze_with_groq (latestSnapshot data) env.news
          ("Provide comprehensive analysis for " ++ symbol) env.groq with
      | .error e => (.error (.http 500 (pyStr e)), [])
      | .ok analysis => (.ok analysis, [Effect.dbInsert "stock_analyses" symbol])

/-- The `POST /api/chat` handler: fetch, news, analyze, return.  It performs
no persistence write. -/
def chat_with_agent (env : HandlerEnv) (symbol query : String) :
    Except PyExc AIAgentResponse × List Effect :=
  match get_stock_data symbol env.upstream with
  | .error e => (.error (.http 500 (pyStr e)), [])
  | .ok data =>
      match analyze_with_groq (latestSnapshot data) env.news query env.groq with
      | .error e => (.error (.http 500 (pyStr e)), [])
      | .ok analysis => (.ok analysis, [])

/-- A WebSocket connection as the `ConnectionManager` sees it: an identity
plus the behaviour of its transport (`send_text` either succeeds or
raises). -/
structure Conn where
  id : ℕ
  failsSend : Bool
  deriving DecidableEq, Repr

/-- The transport call `websocket.send_text(message)`: on success one
delivery event `(connection id, message)` is produced, otherwise an
exception is raised. -/
def send_text (c : Conn) (message : String) : Except String (List (ℕ × String)) :=
  if c.failsSend then .error "send failed" else .ok [(c.id, message)]

/-- `ConnectionManager.send_personal_message`: a bare `send_text` with no
exception handling. -/
def send_personal_message (message : String) (ws : Conn) :
    Except String (List (ℕ × String)) :=
  send_text ws message

/-- `ConnectionManager.broadcast`: iterate over the active connections, and
swallow each per-connection `send_text` failure individually
(`try ... except: pass`).  Returns the delivery events performed. -/
def broadcast (active : List Conn) (message : String) : List (ℕ × String) :=
  active.foldl
    (fun acc c =>
      match send_text c message with
      | .ok evs => acc ++ evs
      | .error _ => acc)
    []

/-- The outcome of `json.loads(data)` on a received WebSocket text frame:
either it raises, or it yields an object with string fields. -/
inductive LoadResult where
  | fail : LoadResult
  | obj : List (String × String) → LoadResult
  deriving DecidableEq, Repr

/-- One iteration's worth of external events for the WebSocket loop: either
`receive_text` raises `WebSocketDisconnect`, or a text frame arrives,
together with the environment's behaviour for that iteration (the
`json.loads` outcome, the `get_stock_data` outcome and whether the reply
send succeeds). -/
inductive WsEvent where
  | disconnect : WsEvent
  | msg : LoadResult → Except String (List ℚ) → Bool → WsEvent
  deriving Repr

/-- How a run of the WebSocket handler ends. -/
inductive WsResult where
  | pending : WsResult
  | cleanExit : WsResult
  | raised : String → WsResult
  deriving DecidableEq, Repr

/-- The `while True` body of `websocket_endpoint`, threading the registry:
a `WebSocketDisconnect` is caught and removes the connection; a
`json.loads` failure, a missing `"type"` or `"symbol"` key, a
`get_stock_data` exception or a failing reply send all propagate out of the
handler uncaught, leaving the registry unchanged. -/
def wsLoop (conn : ℕ) (registry : List ℕ) : List WsEvent → List ℕ × WsResult
  | [] => (registry, .pending)
  | .disconnect :: _ => (registry.erase conn, .cleanExit)
  | .msg load fetch sendOk :: rest =>
      match load with
      | .fail => (registry, .raised "JSONDecodeError")
      | .obj fields =>
          match fields.lookup "type" with
          | none => (registry, .raised "KeyError: type")
          | some t =>
              if t = "stock_subscribe" then
                match fields.lookup "symbol" with
                | none => (registry, .raised "KeyError: symbol")
                | some symbol =>
                    match get_stock_data symbol fetch with
                    | .error e => (registry, .raised (pyStr e))
                    | .ok _ =>
                        if sendOk then wsLoop conn registry rest
                        else (registry, .raised "send failed")
              else wsLoop conn registry rest

/-- `websocket_endpoint`: `manager.connect` appends the connection to the
active list, then the receive loop runs over the incoming events. -/
def websocket_endpoint (conn : ℕ) (registry : List ℕ) (events : List WsEvent) :
    List ℕ × WsResult :=
  wsLoop conn (registry ++ [conn]) events

/-- An event that one loop iteration processes without raising and without
disconnecting, so that the loop continues. -/
def stepOkB : WsEvent → Bool
  | .disconnect => false
  | .msg load fetch sendOk =>
      match load with
      | .fail => false
      | .obj fields =>
          match fields.lookup "type" with
          | none => false
          | some t =>
              if t = "stock_subscribe" then
                match fields.lookup "symbol" with
                | some symbol =>
                    (match get_stock_data symbol fetch with
                     | .ok _ => sendOk
                     | .error _ => false)
                | none => false
              else true

/-! ## Basic length facts -/

theorem length_pdiff (prices : List ℚ) : (pdiff prices).length = prices.length := by
  simp [pdiff]

theorem length_whereGtZero (xs : List PVal) : (whereGtZero xs).length = xs.length := by
  simp [whereGtZero]

theorem length_whereLtZero (xs : List PVal) : (whereLtZero xs).length = xs.length := by
  simp [whereLtZero]

theorem length_pneg (xs : List PVal) : (pneg xs).length = xs.length := by
  simp [pneg]

theorem length_rollingMean (w : ℕ) (xs : List PVal) :
    (rollingMean w xs).length = xs.length := by
  simp [rollingMean]

theorem length_calculate_rsi (prices : List ℚ) (w : ℕ) :
    (calculate_rsi prices w).length = prices.length := by
  simp [calculate_rsi, length_rollingMean, length_whereGtZero, length_pneg,
    length_whereLtZero, length_pdiff]

theorem length_ewmGo (a : ℚ) (ys : List ℚ) :
    ∀ (avg wt : ℚ), (ewmGo a avg wt ys).length = ys.length := by
  induction ys with
  | nil => intro avg wt; rfl
  | cons y ys ih => intro avg wt; simp [ewmGo, ih]

theorem length_ewm_mean (span : ℕ) (xs : List ℚ) :
    (ewm_mean span xs).length = xs.length := by
  cases xs with
  | nil => rfl
  | cons x xs => simp [ewm_mean, length_ewmGo]

theorem length_macd (prices : List ℚ) :
    (calculate_macd prices 12 26 9).1.length = prices.length := by
  simp [calculate_macd, List.length_zipWith, length_ewm_mean]

/-! ## C1: empty upstream series -/

/-- C1: the claim says an empty upstream price series yields HTTP 404 from
`GET /api/stock/{symbol}/data`.  The code indeed raises
`HTTPException(404)` there, but the blanket `except Exception` of
`get_stock_data` catches that very exception and re-raises it as a 500, so
the endpoint answers 500, with the original 404 only visible inside the
detail string.  This theorem evaluates the handler at the failing input. -/
theorem C1_empty_series_returns_500 :
    statusOf (get_stock_chart_data "AAPL" (Except.ok [])) = 500 ∧
    get_stock_chart_data "AAPL" (Except.ok []) =
      Except.error (PyExc.http 500
        "500: Error retrieving data: 404: No data found for symbol AAPL") := by
  exact ⟨rfl, rfl⟩

/-! ## C2, C3, C4, C5, C6, C7: counterexamples -/

/-- C2 counterexample: on the series `[0, 1]` the MACD value the code
computes at index 1 (pandas `ewm` with its default `adjust=True`) differs
from `EMA_fast - EMA_slow` computed with the claim's seeded recurrence
(`7/312` versus `28/351`). -/
theorem C2_counterexample :
    (calculate_macd [0, 1] 12 26 9).1.getD 1 0 ≠
      (List.zipWith (fun x y => x - y)
        (emaSpecRec 12 [0, 1]) (emaSpecRec 26 [0, 1])).getD 1 0 := by
  norm_num [calculate_macd, ewm_mean, ewmGo, ewmAlpha, emaSpecRec, emaSpecRecAux]

/-- C3 counterexample: on the strictly increasing series `1..15`, at index
14 the trailing-window average loss is exactly zero, yet the RSI value is
`100` -- present, not absent -- because NumPy turns `gain/0` with positive
gain into `inf` and `100 - 100/(1 + inf) = 100`. -/
theorem C3_counterexample :
    (rollingMean 14 (pneg (whereLtZero
        (pdiff [1, 2, 3, 4, 5, 6, 7, 8, 9, 10, 11, 12, 13, 14, 15])))).getD 14 PVal.nan =
      PVal.fin 0 ∧
    (calculate_rsi [1, 2, 3, 4, 5, 6, 7, 8, 9, 10, 11, 12, 13, 14, 15] 14).getD 14 PVal.nan =
      PVal.fin 100 := by
  constructor
  · norm_num [rollingMean, pdiff, whereLtZero, pneg, List.range_succ, PVal.gtB,
      PVal.neg, PVal.add, PVal.div]
  · norm_num [calculate_rsi, rollingMean, pdiff, whereGtZero, whereLtZero, pneg,
      List.range_succ, PVal.gtB, PVal.neg, PVal.add, PVal.div, rsiPoint, PVal.sub]

/-- C4 counterexample: `RSI = 0` is reachable (strictly decreasing series),
`0 < 20`, yet the code reports `"Medium"`, not `"High"`, because
`if tech_indicators['rsi']:` is falsy for the float `0.0`. -/
theorem C4_counterexample :
    (calculate_rsi [15, 14, 13, 12, 11, 10, 9, 8, 7, 6, 5, 4, 3, 2, 1] 14).getD 14 PVal.nan =
      PVal.fin 0 ∧
    (0 : ℚ) < 20 ∧ risk_level (some 0) = "Medium" ∧ risk_level (some 0) ≠ "High" := by
  refine ⟨?_, by norm_num, rfl, by decide⟩
  norm_num [calculate_rsi, rollingMean, pdiff, whereGtZero, whereLtZero, pneg,
    List.range_succ, PVal.gtB, PVal.neg, PVal.add, PVal.div, rsiPoint, PVal.sub]

/-- C5 counterexample: for a snapshot with `RSI = 0` (reachable, and
`0 < 30`) the recommendation list is empty -- no oversold hint -- because
`if tech_indicators['rsi'] and ...` is falsy for the float `0.0`. -/
theorem C5_counterexample :
    (0 : ℚ) < 30 ∧ recommendations (some 0) (some 1) (some 2) = [] := by
  exact ⟨by norm_num, rfl⟩

/-- C6 counterexample: a fully successful `POST /api/chat` request performs
no persistence write (its effect list is empty), contradicting the claim
that every AnalysisResult-producing endpoint persists on success. -/
theorem C6_counterexample :
    (∃ r, (chat_with_agent ⟨Except.ok [(1 : ℚ)], [], Except.ok "analysis"⟩
        "AAPL" "outlook").1 = Except.ok r) ∧
    (chat_with_agent ⟨Except.ok [(1 : ℚ)], [], Except.ok "analysis"⟩
        "AAPL" "outlook").2 = [] := by
  exact ⟨⟨_, rfl⟩, rfl⟩

/-- C7 counterexample: `send_personal_message` wraps `send_text` in no
`try`/`except`, so a failing unicast send propagates to the caller instead
of being swallowed. -/
theorem C7_counterexample :
    send_personal_message "hello" ⟨1, true⟩ = Except.error "send failed" := rfl

/-! ## C4 and C5: rule-based risk level and recommendations -/

/-- C4 amended: the risk level is High exactly when RSI is present, nonzero
(Python truthiness) and above 80 or below 20; Low exactly when RSI is
present, nonzero and in [40, 60]; Medium otherwise, in particular when RSI
is absent or exactly 0; and the spec's concrete examples (85, 10, 50, 65)
hold. -/
theorem C4_amended (rsi : Option ℚ) :
    (risk_level rsi = "High" ↔ ∃ r, rsi = some r ∧ r ≠ 0 ∧ (80 < r ∨ r < 20)) ∧
    (risk_level rsi = "Low" ↔ ∃ r, rsi = some r ∧ r ≠ 0 ∧ 40 ≤ r ∧ r ≤ 60) ∧
    ((rsi = none ∨ rsi = some 0) → risk_level rsi = "Medium") ∧
    risk_level (some 85) = "High" ∧ risk_level (some 10) = "High" ∧
    risk_level (some 50) = "Low" ∧ risk_level (some 65) = "Medium" := by
  refine ⟨?_, ?_, ?_, by norm_num [risk_level, truthy], by norm_num [risk_level, truthy],
    by norm_num [risk_level, truthy], by norm_num [risk_level, truthy]⟩
  · cases rsi with
    | none => simp [risk_level, truthy]
    | some r =>
      by_cases h0 : r = 0
      · subst h0; simp [risk_level, truthy]
      · by_cases hh : 80 < r ∨ r < 20
        · simp [risk_level, truthy, h0, hh]
        · by_cases hl : 40 ≤ r ∧ r ≤ 60 <;> simp [risk_level, truthy, h0, hh, hl]
  · cases rsi with
    | none => simp [risk_level, truthy]
    | some r =>
      by_cases h0 : r = 0
      · subst h0; simp [risk_level, truthy]
      · by_cases hh : 80 < r ∨ r < 20
        · have : ¬ (40 ≤ r ∧ r ≤ 60) := by
            rcases hh with h | h <;> intro hc <;> linarith [hc.1, hc.2]
          simp [risk_level, truthy, h0, hh, this]
        · by_cases hl : 40 ≤ r ∧ r ≤ 60 <;> simp [risk_level, truthy, h0, hh, hl]
  · rintro (rfl | rfl) <;> simp [risk_level, truthy]

/-- C4 witness: the amended theorem applied at the concrete snapshot
`RSI = 0`. -/
theorem C4_witness : risk_level (some 0) = "Medium" :=
  (C4_amended (some 0)).2.2.1 (Or.inr rfl)

/-- C5 amended: a hint fires exactly when the tested dictionary entries are
present and nonzero (Python truthiness) and satisfy the rule threshold:
buy iff RSI present, nonzero and below 30; sell iff RSI present, nonzero
and above 70; bullish iff both SMAs are present and nonzero with
SMA20 > SMA50; and the spec's concrete examples hold. -/
theorem C5_amended (rsi s20 s50 : Option ℚ) :
    (buyHint ∈ recommendations rsi s20 s50 ↔ ∃ r, rsi = some r ∧ r ≠ 0 ∧ r < 30) ∧
    (sellHint ∈ recommendations rsi s20 s50 ↔ ∃ r, rsi = some r ∧ r ≠ 0 ∧ 70 < r) ∧
    (bullHint ∈ recommendations rsi s20 s50 ↔
      ∃ p q, s20 = some p ∧ s50 = some q ∧ p ≠ 0 ∧ q ≠ 0 ∧ q < p) ∧
    recommendations (some 25) (some 1) (some 2) = [buyHint] ∧
    recommendations (some 75) (some 1) (some 2) = [sellHint] ∧
    recommendations (some 25) (some 3) (some 2) = [buyHint, bullHint] := by
  have hb : buyHint ∈ recommendations rsi s20 s50 ↔
      (truthy rsi = true ∧ rsi.getD 0 < 30) := by
    unfold recommendations
    split_ifs <;> simp_all [buyHint, sellHint, bullHint]
  have hs : sellHint ∈ recommendations rsi s20 s50 ↔
      (¬ (truthy rsi = true ∧ rsi.getD 0 < 30) ∧
        (truthy rsi = true ∧ 70 < rsi.getD 0)) := by
    unfold recommendations
    split_ifs <;> simp_all [buyHint, sellHint, bullHint]
  have hbull : bullHint ∈ recommendations rsi s20 s50 ↔
      (truthy s20 = true ∧ truthy s50 = true ∧ s50.getD 0 < s20.getD 0) := by
    unfold recommendations
    split_ifs <;> simp_all [buyHint, sellHint, bullHint]
  refine ⟨?_, ?_, ?_, ?_, ?_, ?_⟩
  · rw [hb]; cases rsi <;> simp [truthy]
  · rw [hs]
    cases rsi with
    | none => simp [truthy]
    | some r =>
      simp only [truthy, Option.getD_some, decide_eq_true_eq]
      constructor
      · rintro ⟨-, h0, h70⟩; exact ⟨r, rfl, h0, h70⟩
      · rintro ⟨p, hp, h0, h70⟩
        cases hp
        exact ⟨fun hc => absurd hc.2 (by intro h; linarith), h0, h70⟩
  · rw [hbull]; cases s20 <;> cases s50 <;> simp [truthy, and_assoc]
  · norm_num [recommendations, truthy, buyHint, sellHint, bullHint]
  · norm_num [recommendations, truthy, buyHint, sellHint, bullHint]
  · norm_num [recommendations, truthy, buyHint, sellHint, bullHint]

/-- C5 witness: the amended theorem applied at the concrete snapshot
`RSI = 25`. -/
theorem C5_witness : buyHint ∈ recommendations (some 25) (some 1) (some 2) :=
  (C5_amended (some 25) (some 1) (some 2)).1.mpr ⟨25, rfl, by norm_num, by norm_num⟩

/-! ## C6: persistence writes of the analysis endpoints -/

/-- C6 amended: `POST /api/analyze` performs the persistence write on every
successful request, but `POST /api/chat` never performs any persistence
write (its effect list is empty on every request). -/
theorem C6_amended :
    (∀ (env : HandlerEnv) (symbol timeframe : String) (r : AIAgentResponse),
        (analyze_stock env symbol timeframe).1 = Except.ok r →
        (analyze_stock env symbol timeframe).2 = [Effect.dbInsert "stock_analyses" symbol]) ∧
    (∀ (env : HandlerEnv) (symbol query : String),
        (chat_with_agent env symbol query).2 = []) := by
  constructor
  · intro env symbol timeframe r h
    obtain ⟨up, news, groq⟩ := env
    rcases up with m | closes
    · exact Except.noConfusion h
    · rcases closes with _ | ⟨c, cs⟩
      · exact Except.noConfusion h
      · rcases groq with m | text
        · exact Except.noConfusion h
        · rfl
  · intro env symbol query
    obtain ⟨up, news, groq⟩ := env
    rcases up with m | closes
    · rfl
    · rcases closes with _ | ⟨c, cs⟩
      · rfl
      · rcases groq with m | text
        · rfl
        · rfl

/-- C6 witness: the amended theorem applied to one concrete successful
request to each endpoint. -/
theorem C6_witness :
    (analyze_stock ⟨Except.ok [(1 : ℚ)], [], Except.ok "text"⟩ "AAPL" "1y").2 =
        [Effect.dbInsert "stock_analyses" "AAPL"] ∧
      (chat_with_agent ⟨Except.ok [(1 : ℚ)], [], Except.ok "text"⟩ "AAPL" "q").2 = [] :=
  ⟨C6_amended.1 ⟨Except.ok [(1 : ℚ)], [], Except.ok "text"⟩ "AAPL" "1y" _ rfl,
   C6_amended.2 ⟨Except.ok [(1 : ℚ)], [], Except.ok "text"⟩ "AAPL" "q"⟩

/-! ## C7: connection registry send failures -/

/-- Accumulator lemma for the broadcast fold: the events delivered starting
from `acc` are `acc` followed by the events delivered starting from the
empty accumulator. -/
theorem broadcast_acc (message : String) :
    ∀ (l : List Conn) (acc : List (ℕ × String)),
      l.foldl (fun acc c =>
        match send_text c message with
        | .ok evs => acc ++ evs
        | .error _ => acc) acc =
      acc ++ l.foldl (fun acc c =>
        match send_text c message with
        | .ok evs => acc ++ evs
        | .error _ => acc) [] := by
  intro l
  induction l with
  | nil => intro acc; simp
  | cons c cs ih =>
    intro acc
    simp only [List.foldl_cons]
    rcases hsend : send_text c message with e | evs
    · exact ih acc
    · show List.foldl _ (acc ++ evs) cs = acc ++ List.foldl _ ([] ++ evs) cs
      rw [ih (acc ++ evs), ih ([] ++ evs)]
      simp

/-- C7 amended: during a broadcast every per-connection send failure is
individually swallowed, so every registered connection whose transport does
not fail still receives the message; but a failing unicast
(`send_personal_message`) is not swallowed -- the exception propagates to
the caller. -/
theorem C7_amended (active : List Conn) (message : String) :
    (∀ c ∈ active, c.failsSend = false → (c.id, message) ∈ broadcast active message) ∧
    (∀ c : Conn, c.failsSend = true →
      send_personal_message message c = Except.error "send failed") := by
  constructor
  · induction active with
    | nil => intro c hc; simp at hc
    | cons x xs ih =>
      intro c hc hfail
      unfold broadcast
      simp only [List.foldl_cons]
      rw [broadcast_acc]
      rcases List.mem_cons.mp hc with rfl | hmem
      · simp [send_text, hfail]
      · have hx := ih c hmem hfail
        unfold broadcast at hx
        exact List.mem_append_right _ hx
  · intro c hfail
    simp [send_personal_message, send_text, hfail]

/-- C7 witness: broadcasting to three registered connections where the
second raises on send still delivers to the other two, and the failing
unicast propagates. -/
theorem C7_witness :
    (1, "m") ∈ broadcast [⟨1, false⟩, ⟨2, true⟩, ⟨3, false⟩] "m" ∧
    (3, "m") ∈ broadcast [⟨1, false⟩, ⟨2, true⟩, ⟨3, false⟩] "m" ∧
    send_personal_message "m" ⟨2, true⟩ = Except.error "send failed" :=
  ⟨(C7_amended [⟨1, false⟩, ⟨2, true⟩, ⟨3, false⟩] "m").1 ⟨1, false⟩ (by simp) rfl,
   (C7_amended [⟨1, false⟩, ⟨2, true⟩, ⟨3, false⟩] "m").1 ⟨3, false⟩ (by simp) rfl,
   (C7_amended [⟨1, false⟩, ⟨2, true⟩, ⟨3, false⟩] "m").2 ⟨2, true⟩ rfl⟩

/-! ## C8 and C3: RSI shape and bounds -/

theorem pdiff_shape (prices : List ℚ) :
    ∀ y ∈ pdiff prices, y = PVal.nan ∨ ∃ q, y = PVal.fin q := by
  intro y hy
  simp only [pdiff, List.mem_map, List.mem_range] at hy
  obtain ⟨i, -, rfl⟩ := hy
  by_cases h : i = 0
  · left; simp [h]
  · right; exact ⟨prices.getD i 0 - prices.getD (i - 1) 0, by simp [h]⟩

theorem gain_shape (prices : List ℚ) :
    ∀ y ∈ whereGtZero (pdiff prices), ∃ q : ℚ, y = PVal.fin q ∧ 0 ≤ q := by
  intro y hy
  simp only [whereGtZero, List.mem_map] at hy
  obtain ⟨d, hd, rfl⟩ := hy
  rcases pdiff_shape prices d hd with rfl | ⟨q, rfl⟩
  · exact ⟨0, by simp [PVal.gtB], le_refl 0⟩
  · by_cases hq : 0 < q
    · refine ⟨q, ?_, le_of_lt hq⟩
      simp [PVal.gtB, hq]
    · exact ⟨0, by simp [PVal.gtB, hq], le_refl 0⟩

theorem loss_shape (prices : List ℚ) :
    ∀ y ∈ pneg (whereLtZero (pdiff prices)), ∃ q : ℚ, y = PVal.fin q ∧ 0 ≤ q := by
  intro y hy
  simp only [pneg, whereLtZero, List.map_map, List.mem_map] at hy
  obtain ⟨d, hd, rfl⟩ := hy
  rcases pdiff_shape prices d hd with rfl | ⟨q, rfl⟩
  · exact ⟨0, by simp [PVal.gtB, PVal.neg], le_refl 0⟩
  · by_cases hq : q < 0
    · refine ⟨-q, ?_, by linarith⟩
      simp [PVal.gtB, hq, PVal.neg]
    · exact ⟨0, by simp [PVal.gtB, hq, PVal.neg], le_refl 0⟩

theorem foldr_add_fin_nonneg :
    ∀ (l : List PVal), (∀ y ∈ l, ∃ q : ℚ, y = PVal.fin q ∧ 0 ≤ q) →
      ∃ s : ℚ, l.foldr PVal.add (PVal.fin 0) = PVal.fin s ∧ 0 ≤ s := by
  intro l
  induction l with
  | nil => intro _; exact ⟨0, rfl, le_refl 0⟩
  | cons x xs ih =>
    intro h
    obtain ⟨q, rfl, hq⟩ := h x (List.mem_cons_self x xs)
    obtain ⟨s, hs, hs0⟩ := ih fun y hy => h y (List.mem_cons_of_mem _ hy)
    refine ⟨q + s, ?_, add_nonneg hq hs0⟩
    rw [List.foldr_cons, hs]
    rfl

theorem rollingMean_getD_shape (w : ℕ) (hw : w ≠ 0) (xs : List PVal)
    (hxs : ∀ y ∈ xs, ∃ q : ℚ, y = PVal.fin q ∧ 0 ≤ q) (i : ℕ) :
    (rollingMean w xs).getD i PVal.nan = PVal.nan ∨
      ∃ m : ℚ, (rollingMean w xs).getD i PVal.nan = PVal.fin m ∧ 0 ≤ m := by
  by_cases hi : i < xs.length
  · rw [List.getD_eq_getElem _ _ (by simpa [length_rollingMean] using hi)]
    unfold rollingMean
    rw [List.getElem_map, List.getElem_range]
    by_cases hwin : i + 1 < w
    · left; simp [hwin]
    · right
      rw [if_neg hwin]
      have hmem : ∀ y ∈ (xs.take (i + 1)).drop (i + 1 - w),
          ∃ q : ℚ, y = PVal.fin q ∧ 0 ≤ q :=
        fun y hy => hxs y (List.mem_of_mem_take (List.mem_of_mem_drop hy))
      obtain ⟨s, hs, hs0⟩ := foldr_add_fin_nonneg _ hmem
      rw [hs]
      have hwq : ((w : ℚ)) ≠ 0 := Nat.cast_ne_zero.mpr hw
      refine ⟨s / w, ?_, div_nonneg hs0 (by positivity)⟩
      simp [PVal.div, hwq]
  · left
    exact List.getD_eq_default _ _ (by rw [length_rollingMean]; omega)

theorem calculate_rsi_getD (prices : List ℚ) (w i : ℕ) (hi : i < prices.length) :
    (calculate_rsi prices w).getD i PVal.nan =
      rsiPoint (PVal.div
        ((rollingMean w (whereGtZero (pdiff prices))).getD i PVal.nan)
        ((rollingMean w (pneg (whereLtZero (pdiff prices)))).getD i PVal.nan)) := by
  have hg : (rollingMean w (whereGtZero (pdiff prices))).length = prices.length := by
    rw [length_rollingMean, length_whereGtZero, length_pdiff]
  have hl : (rollingMean w (pneg (whereLtZero (pdiff prices)))).length = prices.length := by
    rw [length_rollingMean, length_pneg, length_whereLtZero, length_pdiff]
  show ((List.zipWith PVal.div
      (rollingMean w (whereGtZero (pdiff prices)))
      (rollingMean w (pneg (whereLtZero (pdiff prices))))).map rsiPoint).getD i PVal.nan = _
  rw [List.getD_eq_getElem _ _ (by simp [List.length_zipWith, hg, hl]; omega)]
  rw [List.getElem_map, List.getElem_zipWith]
  rw [← List.getD_eq_getElem _ PVal.nan (by rw [hg]; exact hi),
    ← List.getD_eq_getElem _ PVal.nan (by rw [hl]; exact hi)]

theorem rsiPoint_fin (q : ℚ) (h : 1 + q ≠ 0) :
    rsiPoint (PVal.fin q) = PVal.fin (100 - 100 / (1 + q)) := by
  simp [rsiPoint, PVal.add, PVal.div, PVal.sub, PVal.neg, h, sub_eq_add_neg]

theorem rsiPoint_inf : rsiPoint PVal.inf = PVal.fin 100 := by
  norm_num [rsiPoint, PVal.add, PVal.div, PVal.sub, PVal.neg]

/-- C8: whenever `calculate_rsi` produces a defined (finite) value, that
value lies in the closed interval [0, 100]. -/
theorem C8_rsi_bounded (prices : List ℚ) (i : ℕ) (r : ℚ)
    (h : (calculate_rsi prices 14).getD i PVal.nan = PVal.fin r) :
    0 ≤ r ∧ r ≤ 100 := by
  by_cases hi : i < prices.length
  case neg =>
    rw [List.getD_eq_default _ _ (by rw [length_calculate_rsi]; omega)] at h
    exact absurd h (by simp)
  case pos =>
    rw [calculate_rsi_getD prices 14 i hi] at h
    rcases rollingMean_getD_shape 14 (by norm_num) _ (gain_shape prices) i with
      hg | ⟨g, hg, hg0⟩
    · rw [hg] at h
      exact absurd h (by simp [PVal.div, rsiPoint, PVal.add, PVal.sub, PVal.neg])
    rcases rollingMean_getD_shape 14 (by norm_num) _ (loss_shape prices) i with
      hl | ⟨l, hl, hl0⟩
    · rw [hg, hl] at h
      exact absurd h (by simp [PVal.div, rsiPoint, PVal.add, PVal.sub, PVal.neg])
    rw [hg, hl] at h
    by_cases hlz : l = 0
    · subst hlz
      rcases lt_or_eq_of_le hg0 with hgpos | hgz
      · rw [show PVal.div (PVal.fin g) (PVal.fin 0) = PVal.inf by
            simp [PVal.div, hgpos], rsiPoint_inf] at h
        injection h with h
        subst h
        norm_num
      · rw [← hgz] at h
        rw [show PVal.div (PVal.fin 0) (PVal.fin 0) = PVal.nan by norm_num [PVal.div]] at h
        exact absurd h (by simp [rsiPoint, PVal.add, PVal.div, PVal.sub, PVal.neg])
    · have hlpos : 0 < l := lt_of_le_of_ne hl0 (Ne.symm hlz)
      rw [show PVal.div (PVal.fin g) (PVal.fin l) = PVal.fin (g / l) by
        simp [PVal.div, hlz]] at h
      have hq0 : 0 ≤ g / l := div_nonneg hg0 (le_of_lt hlpos)
      have h1q : (0 : ℚ) < 1 + g / l := by linarith
      rw [rsiPoint_fin (g / l) (ne_of_gt h1q)] at h
      injection h with h
      subst h
      have hle : 100 / (1 + g / l) ≤ 100 := by
        rw [div_le_iff h1q]
        nlinarith
      have hge : 0 < 100 / (1 + g / l) := by positivity
      constructor <;> linarith

/-- C8 witness: the bound theorem applied at the concrete series `1..15`,
index 14, where the RSI evaluates to 100. -/
theorem C8_witness : (0 : ℚ) ≤ 100 ∧ (100 : ℚ) ≤ 100 :=
  C8_rsi_bounded [1, 2, 3, 4, 5, 6, 7, 8, 9, 10, 11, 12, 13, 14, 15] 14 100 (by
    norm_num [calculate_rsi, rollingMean, pdiff, whereGtZero, whereLtZero, pneg,
      List.range_succ, PVal.gtB, PVal.neg, PVal.add, PVal.div, rsiPoint, PVal.sub])

/-- C3 amended: at an index where the trailing-window average loss is zero,
the RSI value is absent (NaN) only when the average gain is also zero
(`0/0` propagates as NaN); when the average gain is positive the division
by zero yields `inf` and the RSI is the defined value 100.  In both cases
no error is raised -- the computation is total. -/
theorem C3_amended (prices : List ℚ) (i : ℕ)
    (hl : (rollingMean 14 (pneg (whereLtZero (pdiff prices)))).getD i PVal.nan =
      PVal.fin 0) :
    ((rollingMean 14 (whereGtZero (pdiff prices))).getD i PVal.nan = PVal.fin 0 →
      (calculate_rsi prices 14).getD i PVal.nan = PVal.nan) ∧
    (∀ g : ℚ, 0 < g →
      (rollingMean 14 (whereGtZero (pdiff prices))).getD i PVal.nan = PVal.fin g →
      (calculate_rsi prices 14).getD i PVal.nan = PVal.fin 100) := by
  have hi : i < prices.length := by
    by_contra hno
    rw [List.getD_eq_default _ _ (by
      rw [length_rollingMean, length_pneg, length_whereLtZero, length_pdiff]; omega)] at hl
    exact absurd hl (by simp)
  constructor
  · intro hg
    rw [calculate_rsi_getD prices 14 i hi, hg, hl]
    rw [show PVal.div (PVal.fin 0) (PVal.fin 0) = PVal.nan by norm_num [PVal.div]]
    rfl
  · intro g hgpos hg
    rw [calculate_rsi_getD prices 14 i hi, hg, hl]
    rw [show PVal.div (PVal.fin g) (PVal.fin 0) = PVal.inf by simp [PVal.div, hgpos]]
    exact rsiPoint_inf

/-- C3 witness: the amended theorem applied at the series `1..15`, index
14, where the average loss is zero, the average gain is 1 and the RSI is
the present value 100. -/
theorem C3_witness :
    (calculate_rsi [1, 2, 3, 4, 5, 6, 7, 8, 9, 10, 11, 12, 13, 14, 15] 14).getD 14 PVal.nan =
      PVal.fin 100 :=
  (C3_amended [1, 2, 3, 4, 5, 6, 7, 8, 9, 10, 11, 12, 13, 14, 15] 14 (by
      norm_num [rollingMean, pdiff, whereLtZero, pneg, List.range_succ, PVal.gtB,
        PVal.neg, PVal.add, PVal.div])).2 1 (by norm_num) (by
      norm_num [rollingMean, pdiff, whereGtZero, List.range_succ, PVal.gtB,
        PVal.neg, PVal.add, PVal.div])

/-! ## C2: MACD and the adjusted exponential weighting -/

theorem sum_shift_cons (c y : ℚ) (ys : List ℚ) (j : ℕ) :
    (Finset.sum (Finset.range (j + 2)) fun i => c ^ i * (y :: ys).getD (j + 1 - i) 0) =
      (Finset.sum (Finset.range (j + 1)) fun i => c ^ i * ys.getD (j - i) 0) +
        c ^ (j + 1) * y := by
  rw [Finset.sum_range_succ]
  congr 1
  · apply Finset.sum_congr rfl
    intro i hi
    have hij : j + 1 - i = (j - i) + 1 := by
      have := Finset.mem_range.mp hi; omega
    rw [hij, List.getD_cons_succ]
  · norm_num

theorem ewmGo_spec (a : ℚ) (ha : 0 ≤ 1 - a) (ys : List ℚ) :
    ∀ (j : ℕ) (N D : ℚ), 1 ≤ D → j < ys.length →
      (ewmGo a (N / D) D ys).getD j 0 =
        ((1 - a) ^ (j + 1) * N +
            Finset.sum (Finset.range (j + 1)) fun i => (1 - a) ^ i * ys.getD (j - i) 0) /
          ((1 - a) ^ (j + 1) * D +
            Finset.sum (Finset.range (j + 1)) fun i => (1 - a) ^ i) := by
  induction ys with
  | nil => intro j N D hD hj; simp at hj
  | cons y ys ih =>
    intro j N D hD hj
    have hD0 : D ≠ 0 := by linarith
    have howt : (0 : ℚ) ≤ (1 - a) * D := mul_nonneg ha (by linarith)
    have havg2 : (1 - a) * D * (N / D) + y = (1 - a) * N + y := by
      field_simp
      ring
    cases j with
    | zero =>
      show ((1 - a) * D * (N / D) + y) / ((1 - a) * D + 1) = _
      rw [havg2]
      simp [Finset.sum_range_one]
    | succ j =>
      have hj2 : j < ys.length := by simpa using hj
      show (ewmGo a (((1 - a) * D * (N / D) + y) / ((1 - a) * D + 1)) ((1 - a) * D + 1) ys).getD j 0 = _
      rw [havg2]
      rw [ih j ((1 - a) * N + y) ((1 - a) * D + 1) (by linarith) hj2]
      rw [sum_shift_cons, Finset.sum_range_succ (fun i => (1 - a) ^ i) (j + 1)]
      congr 1
      · ring
      · ring

theorem ewm_alpha_le_one (span : ℕ) (hs : 1 ≤ span) : 0 ≤ 1 - ewmAlpha span := by
  unfold ewmAlpha
  have h1 : (1 : ℚ) ≤ (span : ℚ) := by exact_mod_cast hs
  rw [sub_nonneg, div_le_one (by linarith)]
  linarith

theorem ewm_mean_spec (span : ℕ) (hs : 1 ≤ span) (xs : List ℚ) (t : ℕ)
    (ht : t < xs.length) :
    (ewm_mean span xs).getD t 0 = ewmClosed (ewmAlpha span) xs t := by
  have ha := ewm_alpha_le_one span hs
  cases xs with
  | nil => simp at ht
  | cons x xs =>
    cases t with
    | zero =>
      show x = ewmClosed (ewmAlpha span) (x :: xs) 0
      unfold ewmClosed
      simp [Finset.sum_range_one]
    | succ t =>
      have ht2 : t < xs.length := by simpa using ht
      show (ewmGo (ewmAlpha span) x 1 xs).getD t 0 = _
      have hx : ewmGo (ewmAlpha span) x 1 xs = ewmGo (ewmAlpha span) (x / 1) 1 xs := by
        rw [div_one]
      rw [hx, ewmGo_spec (ewmAlpha span) ha xs t x 1 le_rfl ht2]
      unfold ewmClosed
      rw [sum_shift_cons, Finset.sum_range_succ (fun i => (1 - ewmAlpha span) ^ i) (t + 1)]
      congr 1
      · ring
      · ring

theorem getD_zipWith_sub (xs ys : List ℚ) (t : ℕ) (hx : t < xs.length)
    (hy : t < ys.length) :
    (List.zipWith (fun x y => x - y) xs ys).getD t 0 = xs.getD t 0 - ys.getD t 0 := by
  rw [List.getD_eq_getElem _ _ (by simp [List.length_zipWith]; omega),
    List.getD_eq_getElem _ _ hx, List.getD_eq_getElem _ _ hy, List.getElem_zipWith]

/-- C2 amended: the MACD line is `EMA_fast - EMA_slow` and the signal line
is the EMA of that difference, where each EMA is pandas' default
`adjust=True` exponentially weighted mean, whose closed form is
`y_t = (sum (1-a)^i x_{t-i}) / (sum (1-a)^i)` with `a = 2/(span+1)` --
not the claim's plain seeded recurrence. -/
theorem C2_amended (prices : List ℚ) (t : ℕ) (ht : t < prices.length) :
    (calculate_macd prices 12 26 9).1.getD t 0 =
        ewmClosed (ewmAlpha 12) prices t - ewmClosed (ewmAlpha 26) prices t ∧
      (calculate_macd prices 12 26 9).2.getD t 0 =
        ewmClosed (ewmAlpha 9) ((calculate_macd prices 12 26 9).1) t := by
  have hlen : (calculate_macd prices 12 26 9).1.length = prices.length := by
    show (List.zipWith _ (ewm_mean 12 prices) (ewm_mean 26 prices)).length = _
    simp [List.length_zipWith, length_ewm_mean]
  constructor
  · show (List.zipWith (fun x y => x - y)
        (ewm_mean 12 prices) (ewm_mean 26 prices)).getD t 0 = _
    rw [getD_zipWith_sub _ _ t (by rw [length_ewm_mean]; exact ht)
      (by rw [length_ewm_mean]; exact ht)]
    rw [ewm_mean_spec 12 (by norm_num) prices t ht,
      ewm_mean_spec 26 (by norm_num) prices t ht]
  · show (ewm_mean 9 ((calculate_macd prices 12 26 9).1)).getD t 0 = _
    rw [ewm_mean_spec 9 (by norm_num) _ t (by rw [hlen]; exact ht)]

/-- C2 witness: the amended theorem applied at the concrete series `[0,1]`
and index 1. -/
theorem C2_witness :
    (calculate_macd [0, 1] 12 26 9).1.getD 1 0 =
        ewmClosed (ewmAlpha 12) [0, 1] 1 - ewmClosed (ewmAlpha 26) [0, 1] 1 ∧
      (calculate_macd [0, 1] 12 26 9).2.getD 1 0 =
        ewmClosed (ewmAlpha 9) ((calculate_macd [0, 1] 12 26 9).1) 1 :=
  C2_amended [0, 1] 1 (by norm_num)

/-! ## C9: SMA monotonicity on linear series -/

theorem foldr_add_map_fin (l : List ℚ) :
    (l.map PVal.fin).foldr PVal.add (PVal.fin 0) = PVal.fin l.sum := by
  induction l with
  | nil => rfl
  | cons x xs ih => rw [List.map_cons, List.foldr_cons, ih, List.sum_cons]; rfl

theorem range_drop_sub (m w : ℕ) (h : w ≤ m) :
    (List.range m).drop (m - w) = (List.range w).map fun k => m - w + k := by
  obtain ⟨j, rfl⟩ : ∃ j, m = j + w := ⟨m - w, by omega⟩
  rw [show j + w - w = j from by omega, List.range_add,
    List.drop_left' (by simp)]

theorem rollingMean_map_fin_getD (f : ℕ → ℚ) (w n i : ℕ) (hw : w ≠ 0)
    (hwarm : w ≤ i + 1) (hi : i < n) :
    (rollingMean w ((List.range n).map fun k => PVal.fin (f k))).getD i PVal.nan =
      PVal.fin ((((List.range w).map fun k => f (i + 1 - w + k)).sum) / w) := by
  have hlen : ((List.range n).map fun k => PVal.fin (f k)).length = n := by simp
  rw [List.getD_eq_getElem _ _ (by rw [length_rollingMean, hlen]; exact hi)]
  unfold rollingMean
  rw [List.getElem_map, List.getElem_range, if_neg (by omega)]
  have hwin : ((((List.range n).map fun k => PVal.fin (f k)).take (i + 1)).drop (i + 1 - w)) =
      ((List.range w).map fun k => f (i + 1 - w + k)).map PVal.fin := by
    rw [← List.map_take, ← List.map_drop, List.take_range,
      Nat.min_eq_left (by omega), range_drop_sub (i + 1) w hwarm]
    simp [List.map_map]
  rw [hwin, foldr_add_map_fin]
  have hwq : ((w : ℚ)) ≠ 0 := Nat.cast_ne_zero.mpr hw
  simp [PVal.div, hwq]

theorem sum_map_add_const (l : List ℕ) (g : ℕ → ℚ) (c : ℚ) :
    (l.map fun k => g k + c).sum = (l.map g).sum + l.length * c := by
  induction l with
  | nil => simp
  | cons x xs ih => simp [ih]; ring

theorem sma_linear_mono (a d : ℚ) (hd : 0 < d) (w n i : ℕ) (hw : w ≠ 0)
    (hwarm : w ≤ i + 1) (hin : i + 1 < n) :
    ∃ x y : ℚ,
      (rollingMean w (((List.range n).map fun k : ℕ => a + d * (k : ℚ)).map PVal.fin)).getD
          i PVal.nan = PVal.fin x ∧
      (rollingMean w (((List.range n).map fun k : ℕ => a + d * (k : ℚ)).map PVal.fin)).getD
          (i + 1) PVal.nan = PVal.fin y ∧
      x < y := by
  have hmm : ((List.range n).map fun k : ℕ => a + d * (k : ℚ)).map PVal.fin =
      (List.range n).map fun k : ℕ => PVal.fin (a + d * (k : ℚ)) := by
    rw [List.map_map]; rfl
  rw [hmm, rollingMean_map_fin_getD _ w n i hw hwarm (by omega),
    rollingMean_map_fin_getD _ w n (i + 1) hw (by omega) hin]
  refine ⟨_, _, rfl, rfl, ?_⟩
  have hw0 : (0 : ℚ) < (w : ℚ) := by
    have := Nat.pos_of_ne_zero hw
    exact_mod_cast this
  have hsum : ((List.range w).map fun k => a + d * ((i + 1 + 1 - w + k : ℕ) : ℚ)).sum =
      ((List.range w).map fun k => (a + d * ((i + 1 - w + k : ℕ) : ℚ)) + d).sum := by
    apply congrArg
    apply List.map_congr_left
    intro k hk
    rw [show i + 1 + 1 - w + k = (i + 1 - w + k) + 1 from by omega]
    push_cast
    ring
  have hlt : ((List.range w).map fun k => a + d * ((i + 1 - w + k : ℕ) : ℚ)).sum <
      ((List.range w).map fun k => a + d * ((i + 1 + 1 - w + k : ℕ) : ℚ)).sum := by
    rw [hsum, sum_map_add_const]
    simp only [List.length_range]
    have h2 : (0 : ℚ) < (w : ℚ) * d := mul_pos hw0 hd
    linarith
  exact (div_lt_div_right hw0).mpr hlt

/-- C9: on a strictly increasing linear price series the SMA20 and SMA50
columns attached by `get_stock_data` are strictly increasing at every index
past their respective warm-up windows (both consecutive values are defined
and the later one is larger). -/
theorem C9_sma_monotone (a d : ℚ) (hd : 0 < d) (n i : ℕ) :
    (20 ≤ i + 1 → i + 1 < n →
      ∃ x y : ℚ,
        (enrich ((List.range n).map fun k : ℕ => a + d * (k : ℚ))).sma_20.getD i PVal.nan =
            PVal.fin x ∧
          (enrich ((List.range n).map fun k : ℕ => a + d * (k : ℚ))).sma_20.getD (i + 1) PVal.nan =
            PVal.fin y ∧
          x < y) ∧
    (50 ≤ i + 1 → i + 1 < n →
      ∃ x y : ℚ,
        (enrich ((List.range n).map fun k : ℕ => a + d * (k : ℚ))).sma_50.getD i PVal.nan =
            PVal.fin x ∧
          (enrich ((List.range n).map fun k : ℕ => a + d * (k : ℚ))).sma_50.getD (i + 1) PVal.nan =
            PVal.fin y ∧
          x < y) := by
  constructor
  · intro hwarm hin
    exact sma_linear_mono a d hd 20 n i (by norm_num) hwarm hin
  · intro hwarm hin
    exact sma_linear_mono a d hd 50 n i (by norm_num) hwarm hin

/-- C9 witness: the monotonicity theorem applied to the linear series
`0, 1, ..., 51` at index 49, where both windows are past warm-up. -/
theorem C9_witness :
    (∃ x y : ℚ,
        (enrich ((List.range 52).map fun k : ℕ => (0 : ℚ) + 1 * (k : ℚ))).sma_20.getD 49 PVal.nan =
            PVal.fin x ∧
          (enrich ((List.range 52).map fun k : ℕ => (0 : ℚ) + 1 * (k : ℚ))).sma_20.getD 50 PVal.nan =
            PVal.fin y ∧
          x < y) ∧
    (∃ x y : ℚ,
        (enrich ((List.range 52).map fun k : ℕ => (0 : ℚ) + 1 * (k : ℚ))).sma_50.getD 49 PVal.nan =
            PVal.fin x ∧
          (enrich ((List.range 52).map fun k : ℕ => (0 : ℚ) + 1 * (k : ℚ))).sma_50.getD 50 PVal.nan =
            PVal.fin y ∧
          x < y) :=
  ⟨(C9_sma_monotone 0 1 (by norm_num) 52 49).1 (by norm_num) (by norm_num),
   (C9_sma_monotone 0 1 (by norm_num) 52 49).2 (by norm_num) (by norm_num)⟩

/-! ## C10: WebSocket registry discipline -/

theorem wsLoop_step (conn : ℕ) (reg : List ℕ) (e : WsEvent) (rest : List WsEvent) :
    (e = WsEvent.disconnect ∧
      wsLoop conn reg (e :: rest) = (reg.erase conn, WsResult.cleanExit)) ∨
    (stepOkB e = false ∧ e ≠ WsEvent.disconnect ∧
      ∃ m, wsLoop conn reg (e :: rest) = (reg, WsResult.raised m)) ∨
    (stepOkB e = true ∧ wsLoop conn reg (e :: rest) = wsLoop conn reg rest) := by
  cases e with
  | disconnect => exact Or.inl ⟨rfl, rfl⟩
  | msg load fetch sendOk =>
    cases load with
    | fail =>
      exact Or.inr (Or.inl ⟨rfl, by simp, "JSONDecodeError", rfl⟩)
    | obj fields =>
      rcases hty : fields.lookup "type" with _ | t
      · refine Or.inr (Or.inl ⟨?_, by simp, "KeyError: type", ?_⟩)
        · simp [stepOkB, hty]
        · simp [wsLoop, hty]
      · by_cases ht : t = "stock_subscribe"
        · subst ht
          rcases hsym : fields.lookup "symbol" with _ | symbol
          · refine Or.inr (Or.inl ⟨?_, by simp, "KeyError: symbol", ?_⟩)
            · simp [stepOkB, hty, hsym]
            · simp [wsLoop, hty, hsym]
          · rcases hfetch : get_stock_data symbol fetch with err | data
            · refine Or.inr (Or.inl ⟨?_, by simp, pyStr err, ?_⟩)
              · simp [stepOkB, hty, hsym, hfetch]
              · simp [wsLoop, hty, hsym, hfetch]
            · cases sendOk with
              | false =>
                refine Or.inr (Or.inl ⟨?_, by simp, "send failed", ?_⟩)
                · simp [stepOkB, hty, hsym, hfetch]
                · simp [wsLoop, hty, hsym, hfetch]
              | true =>
                refine Or.inr (Or.inr ⟨?_, ?_⟩)
                · simp [stepOkB, hty, hsym, hfetch]
                · simp [wsLoop, hty, hsym, hfetch]
        · refine Or.inr (Or.inr ⟨?_, ?_⟩)
          · simp [stepOkB, hty, ht]
          · simp [wsLoop, hty, ht]

theorem wsLoop_no_disconnect (conn : ℕ) :
    ∀ (events : List WsEvent) (reg : List ℕ),
      conn ∈ reg → WsEvent.disconnect ∉ events → conn ∈ (wsLoop conn reg events).1 := by
  intro events
  induction events with
  | nil => intro reg hc _; exact hc
  | cons e rest ih =>
    intro reg hc hnd
    rcases wsLoop_step conn reg e rest with ⟨he, -⟩ | ⟨-, -, m, hm⟩ | ⟨-, hstep⟩
    · subst he
      exact absurd (List.mem_cons_self _ _) hnd
    · rw [hm]
      exact hc
    · rw [hstep]
      exact ih reg hc fun h => hnd (List.mem_cons_of_mem _ h)

theorem wsLoop_bad_msg (conn : ℕ) :
    ∀ (pre : List WsEvent) (reg : List ℕ) (load : LoadResult)
      (fetch : Except String (List ℚ)) (sOk : Bool) (rest : List WsEvent),
      (∀ e ∈ pre, stepOkB e = true) →
      (load = LoadResult.fail ∨
        ∃ fields, load = LoadResult.obj fields ∧ fields.lookup "type" = none) →
      ∃ m, wsLoop conn reg (pre ++ WsEvent.msg load fetch sOk :: rest) =
        (reg, WsResult.raised m) := by
  intro pre
  induction pre with
  | nil =>
    intro reg load fetch sOk rest _ hbad
    rcases hbad with rfl | ⟨fields, rfl, hty⟩
    · exact ⟨"JSONDecodeError", rfl⟩
    · exact ⟨"KeyError: type", by simp [wsLoop, hty]⟩
  | cons e pre ih =>
    intro reg load fetch sOk rest hok hbad
    have he : stepOkB e = true := hok e (List.mem_cons_self _ _)
    have hcont : wsLoop conn reg ((e :: pre) ++ WsEvent.msg load fetch sOk :: rest) =
        wsLoop conn reg (pre ++ WsEvent.msg load fetch sOk :: rest) := by
      rcases wsLoop_step conn reg e (pre ++ WsEvent.msg load fetch sOk :: rest) with
        ⟨he2, -⟩ | ⟨hf, -, -⟩ | ⟨-, hstep⟩
      · subst he2
        simp [stepOkB] at he
      · simp [hf] at he
      · exact hstep
    rw [hcont]
    exact ih reg load fetch sOk rest (fun x hx => hok x (List.mem_cons_of_mem _ hx)) hbad

/-- C10: the WebSocket handler removes its connection from the registry
only when a `WebSocketDisconnect` occurs among the received events; and if,
after any prefix of successfully processed messages, a message arrives that
is not valid JSON or whose object lacks a `"type"` key, the handler ends
with an unhandled exception and the connection is still in the registry's
active-connection list. -/
theorem C10_ws_registry (conn : ℕ) (registry : List ℕ) (events : List WsEvent) :
    ((conn ∉ (websocket_endpoint conn registry events).1) →
      WsEvent.disconnect ∈ events) ∧
    (∀ (pre : List WsEvent) (load : LoadResult) (fetch : Except String (List ℚ))
        (sOk : Bool) (rest : List WsEvent),
      events = pre ++ WsEvent.msg load fetch sOk :: rest →
      (∀ e ∈ pre, stepOkB e = true) →
      (load = LoadResult.fail ∨
        ∃ fields, load = LoadResult.obj fields ∧ fields.lookup "type" = none) →
      (∃ m, (websocket_endpoint conn registry events).2 = WsResult.raised m) ∧
        conn ∈ (websocket_endpoint conn registry events).1) := by
  constructor
  · intro h
    by_contra hnd
    exact h (wsLoop_no_disconnect conn events (registry ++ [conn]) (by simp) hnd)
  · intro pre load fetch sOk rest heq hok hbad
    obtain ⟨m, hm⟩ := wsLoop_bad_msg conn pre (registry ++ [conn]) load fetch sOk rest hok hbad
    unfold websocket_endpoint
    rw [heq, hm]
    exact ⟨⟨m, rfl⟩, by simp⟩

/-- C10 witness: a concrete run -- one ignored `"ping"` message followed by
an invalid-JSON frame -- raises and leaves connection 7 registered. -/
theorem C10_witness :
    (∃ m, (websocket_endpoint 7 [1, 2]
        [WsEvent.msg (LoadResult.obj [("type", "ping")]) (Except.error "boom") false,
          WsEvent.msg LoadResult.fail (Except.error "boom") false]).2 =
      WsResult.raised m) ∧
      7 ∈ (websocket_endpoint 7 [1, 2]
        [WsEvent.msg (LoadResult.obj [("type", "ping")]) (Except.error "boom") false,
          WsEvent.msg LoadResult.fail (Except.error "boom") false]).1 :=
  (C10_ws_registry 7 [1, 2]
      [WsEvent.msg (LoadResult.obj [("type", "ping")]) (Except.error "boom") false,
        WsEvent.msg LoadResult.fail (Except.error "boom") false]).2
    [WsEvent.msg (LoadResult.obj [("type", "ping")]) (Except.error "boom") false]
    LoadResult.fail (Except.error "boom") false [] rfl (by decide) (Or.inl rfl)
